import Mathlib

/-
Shallow embedding of the moray batch-update benchmark harness
(src/src/main.rs).  The store client, DNS resolver and RNG are external
collaborators: every random draw the code makes is passed in explicitly
(one parameter per draw, in the order the source draws them), and every
network call is represented by its result (an oracle telling which store
call fails, or the candidate list a DNS lookup returned).  HashMaps are
modelled as association lists with insert-overwrites-existing-key
semantics (`insertKV`), matching `HashMap::insert`.
-/

namespace MorayBatchTest

/-- Placement descriptor (`MantaObjectShark` in libmanta): a datacenter
label and a storage-node identifier. -/
structure MantaObjectShark where
  datacenter : String
  manta_storage_id : String
  deriving DecidableEq, Repr

/-- Domain object (`MantaObject`): only the fields the harness reads or
writes are modelled — the unique identifier used as the corpus key and
the mutable list of placement descriptors.  All other fields are opaque
payload carried through unchanged by the harness, so they are omitted. -/
structure MantaObject where
  object_id : String
  sharks : List MantaObjectShark
  deriving DecidableEq, Repr

/-- Serialized form produced by `serde_json::to_value` on a `MantaObject`.
Serialization is injective on the modelled fields, so the serialized
value is represented by the object itself under a constructor tag. -/
inductive Value where
  | obj (m : MantaObject)
  deriving DecidableEq, Repr

/-- Projection giving the placement-descriptor list of a serialized object. -/
def sharksOf : Value → List MantaObjectShark
  | Value.obj m => m.sharks

/-- `HashMap::insert` on the association-list model: if the key is
present the stored value is replaced, otherwise the pair is appended. -/
def insertKV {β : Type} (m : List (String × β)) (k : String) (v : β) :
    List (String × β) :=
  if m.any (fun p => p.1 == k) then
    m.map (fun p => if p.1 == k then (k, v) else p)
  else
    m ++ [(k, v)]

/-- `rng.gen_range(lo, hi)` : a draw uniform in `[lo, hi)`, modelled on
entropy `r` as `lo + r % (hi - lo)`. -/
def gen_range (lo hi r : Nat) : Nat := lo + r % (hi - lo)

/-- Storage id formatting `format!("{}.stor.domain", n)`. -/
def format_storage_id (n : Nat) : String := toString n ++ ".stor.domain"

/-- Random draws consumed by one iteration of `gen_test_objects`: the
arbitrary `MantaObject` produced by quickcheck, and the entropy for the
two `gen_range` calls populating the shark list. -/
structure GenDraw where
  base : MantaObject
  r1 : Nat
  r2 : Nat
  deriving DecidableEq, Repr

/-- One loop iteration of `gen_test_objects`: builds the two sharks
(first pass number in {1,2}, second in {3,4}) and overwrites the
arbitrary object's shark list with them. -/
def gen_one (d : GenDraw) : MantaObject :=
  let n1 := gen_range 1 3 d.r1
  let n2 := gen_range 3 5 d.r2
  { d.base with
      sharks := [⟨"foo", format_storage_id n1⟩, ⟨"foo", format_storage_id n2⟩] }

/-- `gen_test_objects`: the loop `for _ in 0..num_objects` is modelled by
folding over the list of per-iteration random draws (whose length is
`num_objects`); each iteration inserts the generated object keyed by its
own `object_id` into the map. -/
def gen_test_objects (draws : List GenDraw) : List (String × MantaObject) :=
  draws.foldl (fun acc d => insertKV acc (gen_one d).object_id (gen_one d)) []

/-- Body of the `alter_objects` loop for one entry: clone the object,
pop the last shark (`Vec::pop` on an empty vector is a no-op), and push
a fresh shark built from the invocation-wide random token and id. -/
def alter_one (rand_string : String) (rand_id : Nat) (v : MantaObject) :
    MantaObject :=
  { v with
      sharks := v.sharks.dropLast
        ++ [⟨rand_string, format_storage_id rand_id⟩] }

/-- `alter_objects`: `rand_string` and `rand_id` are the two random draws
made once at the top of the function (`random_string(10)` and the sampled
`u16`); the loop inserts the serialized altered clone of every entry into
a fresh map. -/
def alter_objects (rand_string : String) (rand_id : Nat)
    (objects : List (String × MantaObject)) : List (String × Value) :=
  objects.foldl
    (fun acc p => insertKV acc p.1 (Value.obj (alter_one rand_string rand_id p.2)))
    []

/-- Instrumented rendering of the same `alter_objects` loop that makes
the shared borrow explicit: alongside the output map it re-emits each
input entry exactly as the loop read it (the mutation acts on the clone
`mobj`, never on the borrowed entry `v`), so the first component is the
input corpus as it stands after the loop. -/
def alter_objects_frame (rand_string : String) (rand_id : Nat)
    (objects : List (String × MantaObject)) :
    List (String × MantaObject) × List (String × Value) :=
  objects.foldl
    (fun acc p =>
      (acc.1 ++ [p],
       insertKV acc.2 p.1 (Value.obj (alter_one rand_string rand_id p.2))))
    ([], [])

/-- Errors surfaced to the harness: `InternalError::CatchAll` (the
discovery error used for zero SRV candidates / unresolvable host) and
failures returned by the store client. -/
inductive Err where
  | catchAll
  | store (msg : String)
  deriving DecidableEq, Repr

/-- Result of running a piece of the harness: normal return, an error
value propagated with `?`, or a process abort via `panic` / `expect`. -/
inductive Outcome (α : Type) where
  | ok (a : α)
  | err (e : Err)
  | panic (msg : String)
  deriving DecidableEq, Repr

/-- Test whether an outcome is an abort via panic. -/
def isPanic {α : Type} : Outcome α → Bool
  | Outcome.panic _ => true
  | _ => false

/-- Test whether an outcome is a propagated error value. -/
def isErrValue {α : Type} : Outcome α → Bool
  | Outcome.err _ => true
  | _ => false

/-- SRV record (`resolve::record::Srv`). -/
structure Srv where
  priority : Nat
  weight : Nat
  port : Nat
  target : String
  deriving DecidableEq, Repr

/-- `SliceRandom::choose`: `none` on an empty slice, otherwise a
uniformly random element (entropy `r`). -/
def choose {α : Type} (l : List α) (r : Nat) : Option α :=
  l.get? (r % l.length)

/-- `get_srv_record`: the DNS lookup's result is passed in
(`lookup_result`); a lookup error propagates with `?`, an empty
candidate list makes `choose` return `none` which `ok_or_else` turns
into the `CatchAll` error. -/
def get_srv_record (lookup_result : Except Err (List Srv)) (r : Nat) :
    Outcome Srv :=
  match lookup_result with
  | Except.error e => Outcome.err e
  | Except.ok recs =>
    match choose recs r with
    | some s => Outcome.ok s
    | none => Outcome.err Err.catchAll

/-- Resolved network address, opaque beyond identity. -/
structure IpAddr where
  addr : String
  deriving DecidableEq, Repr

/-- `lookup_ip`: `resolve_host(host)?` yields the address list; `.first()`
on an empty list gives `None`, which becomes the `CatchAll` error. -/
def lookup_ip (resolve_result : Except Err (List IpAddr)) : Outcome IpAddr :=
  match resolve_result with
  | Except.error e => Outcome.err e
  | Except.ok addrs =>
    match addrs.head? with
    | some a => Outcome.ok a
    | none => Outcome.err Err.catchAll

/-- Bucket name constant. -/
def BUCKET_NAME : String := "rust_batch_test_bucket"

/-- Write options, opaque to the harness logic. -/
structure MethodOptions where
  deriving DecidableEq, Repr

/-- `moray::objects::BatchPutOp`. -/
structure BatchPutOp where
  bucket : String
  options : MethodOptions
  key : String
  value : Value
  deriving DecidableEq, Repr

/-- `moray::objects::BatchRequest` (only the `Put` variant is used). -/
inductive BatchRequest where
  | put (op : BatchPutOp)
  deriving DecidableEq, Repr

/-- Loop of `run_sequential_test`: `fails n` tells whether the n-th
`put_object` call of this pass fails.  On failure `.expect("put object")`
aborts with a panic.  The second component is the list of entries for
which a `put_object` call was issued (the failing call included). -/
def seq_loop (fails : Nat → Bool) :
    List (String × Value) → Nat → Outcome Unit × List (String × Value)
  | [], _ => (Outcome.ok (), [])
  | (k, v) :: rest, n =>
    if fails n then
      (Outcome.panic "put object", [(k, v)])
    else
      let r := seq_loop fails rest (n + 1)
      (r.1, (k, v) :: r.2)

/-- `run_sequential_test`: one `put_object` per entry, aborting via
panic on the first failure. -/
def run_sequential_test (fails : Nat → Bool) (objects : List (String × Value)) :
    Outcome Unit × List (String × Value) :=
  seq_loop fails objects 0

/-- Loop of `run_batch_test`.  State mirrors the source exactly: the
pending `batch` vector, the running `batch_count` (incremented for every
entry and, as in the source, never reset after a flush), and the index
`ncalls` of the next store `batch` call for the failure oracle.  A flush
happens when `batch_count` reaches `batch_size`; a failing flush
propagates the store error with `?`; entries left in `batch` when the
loop ends are dropped.  The second component lists the batches passed to
`mclient.batch`. -/
def batch_loop (fails : Nat → Bool) (batch_size : Nat) :
    List (String × Value) → List BatchRequest → Nat → Nat →
    Outcome Unit × List (List BatchRequest)
  | [], _batch, _batch_count, _ncalls => (Outcome.ok (), [])
  | (key, value) :: rest, batch, batch_count, ncalls =>
    let batch' := batch ++ [BatchRequest.put ⟨BUCKET_NAME, ⟨⟩, key, value⟩]
    let batch_count' := batch_count + 1
    if batch_count' = batch_size then
      if fails ncalls then
        (Outcome.err (Err.store "batch"), [batch'])
      else
        let r := batch_loop fails batch_size rest [] batch_count' (ncalls + 1)
        (r.1, batch' :: r.2)
    else
      batch_loop fails batch_size rest batch' batch_count' ncalls

/-- `run_batch_test` with its initial state: empty batch, zero count. -/
def run_batch_test (fails : Nat → Bool) (objects : List (String × Value))
    (batch_size : Nat) : Outcome Unit × List (List BatchRequest) :=
  batch_loop fails batch_size objects [] 0 0

/-- Benchmark strategy tag. -/
inductive Strategy where
  | sequential
  | batched
  deriving DecidableEq, Repr

/-- Record of one benchmark pass: which runner executed and the mapping
it was handed. -/
structure PassRecord where
  strat : Strategy
  input : List (String × Value)
  deriving DecidableEq, Repr

/-- Benchmark section of `main` (lines 167-182): four passes, each
preceded by a fresh `alter_objects` on the baseline `test_objects`, in
the order sequential, batched(50), batched(50), sequential.  `f1..f4`
are the per-pass store failure oracles, `t1..t4` the per-pass random
draws (token, id) of the four `alter_objects` invocations.  A failing
pass stops the run (`?` on the batch result, panic in the sequential
runner); the records list the passes that were started. -/
def main_bench (f1 f2 f3 f4 : Nat → Bool) (t1 t2 t3 t4 : String × Nat)
    (test_objects : List (String × MantaObject)) :
    Outcome Unit × List PassRecord :=
  let a1 := alter_objects t1.1 t1.2 test_objects
  let r1 : PassRecord := ⟨Strategy.sequential, a1⟩
  match (run_sequential_test f1 a1).1 with
  | Outcome.err e => (Outcome.err e, [r1])
  | Outcome.panic m => (Outcome.panic m, [r1])
  | Outcome.ok _ =>
    let a2 := alter_objects t2.1 t2.2 test_objects
    let r2 : PassRecord := ⟨Strategy.batched, a2⟩
    match (run_batch_test f2 a2 50).1 with
    | Outcome.err e => (Outcome.err e, [r1, r2])
    | Outcome.panic m => (Outcome.panic m, [r1, r2])
    | Outcome.ok _ =>
      let a3 := alter_objects t3.1 t3.2 test_objects
      let r3 : PassRecord := ⟨Strategy.batched, a3⟩
      match (run_batch_test f3 a3 50).1 with
      | Outcome.err e => (Outcome.err e, [r1, r2, r3])
      | Outcome.panic m => (Outcome.panic m, [r1, r2, r3])
      | Outcome.ok _ =>
        let a4 := alter_objects t4.1 t4.2 test_objects
        let r4 : PassRecord := ⟨Strategy.sequential, a4⟩
        match (run_sequential_test f4 a4).1 with
        | Outcome.err e => (Outcome.err e, [r1, r2, r3, r4])
        | Outcome.panic m => (Outcome.panic m, [r1, r2, r3, r4])
        | Outcome.ok _ => (Outcome.ok (), [r1, r2, r3, r4])

/-- Membership in an insert: an element of `insertKV m k v` is an
element of `m` or is the inserted pair. -/
lemma mem_insertKV {β : Type} {m : List (String × β)} {k : String} {v : β}
    {q : String × β} (hq : q ∈ insertKV m k v) : q ∈ m ∨ q = (k, v) := by
  unfold insertKV at hq
  split at hq
  · rcases List.mem_map.mp hq with ⟨p, hp, hpq⟩
    by_cases hb : (p.1 == k) = true
    · rw [if_pos hb] at hpq
      right; exact hpq.symm
    · rw [if_neg hb] at hpq
      left; rw [← hpq]; exact hp
  · rcases List.mem_append.mp hq with h | h
    · left; exact h
    · right; simpa using h

/-- Inserting a key that is not yet present appends the pair. -/
lemma insertKV_of_not_mem {β : Type} {m : List (String × β)} {k : String}
    (v : β) (h : k ∉ m.map Prod.fst) : insertKV m k v = m ++ [(k, v)] := by
  unfold insertKV
  rw [if_neg]
  simp only [List.any_eq_true, beq_iff_eq, not_exists]
  intro p hp
  exact absurd (List.mem_map.mpr ⟨p, hp.1, hp.2⟩) h

/-- Every element of an `insertKV` fold satisfies `P` provided the seed
elements and all inserted pairs do. -/
lemma mem_foldl_insertKV {ι β : Type} (key : ι → String) (val : ι → β)
    (P : String × β → Prop) :
    ∀ (items : List ι) (acc : List (String × β)),
      (∀ q ∈ acc, P q) → (∀ i ∈ items, P (key i, val i)) →
      ∀ q ∈ items.foldl (fun a i => insertKV a (key i) (val i)) acc, P q := by
  intro items
  induction items with
  | nil => intro acc hacc _ q hq; exact hacc q hq
  | cons i rest ih =>
    intro acc hacc hitems q hq
    simp only [List.foldl_cons] at hq
    refine ih (insertKV acc (key i) (val i)) ?_ ?_ q hq
    · intro p hp
      rcases mem_insertKV hp with h | h
      · exact hacc p h
      · rw [h]; exact hitems i (List.mem_cons_self i rest)
    · intro j hj; exact hitems j (List.mem_cons_of_mem i hj)

/-- When the inserted keys are pairwise distinct and fresh for the seed,
the `insertKV` fold is a plain append of the mapped pairs. -/
lemma foldl_insertKV_eq_append {ι β : Type} (key : ι → String) (val : ι → β) :
    ∀ (items : List ι) (acc : List (String × β)),
      (items.map key).Nodup →
      (∀ i ∈ items, key i ∉ acc.map Prod.fst) →
      items.foldl (fun a i => insertKV a (key i) (val i)) acc
        = acc ++ items.map (fun i => (key i, val i)) := by
  intro items
  induction items with
  | nil => intro acc _ _; simp
  | cons i rest ih =>
    intro acc hnd hfresh
    have hnd2 : (rest.map key).Nodup := (List.nodup_cons.mp (by simpa using hnd)).2
    have hhead : key i ∉ rest.map key := (List.nodup_cons.mp (by simpa using hnd)).1
    simp only [List.foldl_cons]
    rw [insertKV_of_not_mem (val i) (hfresh i (List.mem_cons_self i rest))]
    rw [ih (acc ++ [(key i, val i)]) hnd2 ?_]
    · simp
    · intro j hj
      simp only [List.map_append, List.mem_append]
      intro hmem
      rcases hmem with hins | hins
      · exact hfresh j (List.mem_cons_of_mem i hj) hins
      · simp only [List.map_cons, List.map_nil, List.mem_singleton] at hins
        exact hhead (hins ▸ List.mem_map.mpr ⟨j, hj, rfl⟩)

/-- The sequential loop with no failing put writes every entry and ends
normally. -/
lemma seq_loop_ok (l : List (String × Value)) :
    ∀ n, seq_loop (fun _ => false) l n = (Outcome.ok (), l) := by
  induction l with
  | nil => intro n; rfl
  | cons p rest ih =>
    intro n
    cases p with
    | mk k v => simp [seq_loop, ih (n + 1)]

/-- The sequential loop aborts with a panic at its first failing put:
the attempted entries are exactly the first `k + 1`. -/
lemma seq_loop_first_fail (fails : Nat → Bool) :
    ∀ (l : List (String × Value)) (n k : Nat), k < l.length →
      (∀ j, j < k → fails (n + j) = false) → fails (n + k) = true →
      seq_loop fails l n = (Outcome.panic "put object", l.take (k + 1)) := by
  intro l
  induction l with
  | nil => intro n k hk _ _; simp at hk
  | cons p rest ih =>
    intro n k hk hbefore hfail
    cases p with
    | mk kk v =>
      cases k with
      | zero =>
        have h0 : fails n = true := by simpa using hfail
        simp [seq_loop, h0]
      | succ k0 =>
        have h0 : fails n = false := by simpa using hbefore 0 (Nat.succ_pos k0)
        have hb2 : ∀ j, j < k0 → fails (n + 1 + j) = false := by
          intro j hj
          have := hbefore (j + 1) (Nat.succ_lt_succ hj)
          rwa [show n + (j + 1) = n + 1 + j by omega] at this
        have hf2 : fails (n + 1 + k0) = true := by
          rwa [show n + (k0 + 1) = n + 1 + k0 by omega] at hfail
        have ihr := ih (n + 1) k0 (by simpa using hk) hb2 hf2
        simp [seq_loop, h0, ihr]

/-- Unfolding equation for one iteration of the batch loop. -/
lemma batch_loop_cons (fails : Nat → Bool) (T : Nat) (key : String) (v : Value)
    (rest : List (String × Value)) (batch : List BatchRequest) (c n : Nat) :
    batch_loop fails T ((key, v) :: rest) batch c n =
      if c + 1 = T then
        if fails n then
          (Outcome.err (Err.store "batch"),
           [batch ++ [BatchRequest.put ⟨BUCKET_NAME, ⟨⟩, key, v⟩]])
        else
          ((batch_loop fails T rest [] (c + 1) (n + 1)).1,
           (batch ++ [BatchRequest.put ⟨BUCKET_NAME, ⟨⟩, key, v⟩])
             :: (batch_loop fails T rest [] (c + 1) (n + 1)).2)
      else
        batch_loop fails T rest
          (batch ++ [BatchRequest.put ⟨BUCKET_NAME, ⟨⟩, key, v⟩]) (c + 1) n :=
  rfl

/-- Number of store `batch` calls the loop performs from running count
`c`: exactly one when the count will reach the threshold, zero
otherwise — the count is never reset, so a second flush is impossible. -/
lemma batch_loop_calls (fails : Nat → Bool) (T : Nat) :
    ∀ (l : List (String × Value)) (batch : List BatchRequest) (c n : Nat),
      (batch_loop fails T l batch c n).2.length
        = if c < T ∧ T ≤ c + l.length then 1 else 0 := by
  intro l
  induction l with
  | nil =>
    intro batch c n
    rw [if_neg (by simp only [List.length_nil]; omega)]
    rfl
  | cons p rest ih =>
    intro batch c n
    cases p with
    | mk key v =>
      rw [batch_loop_cons]
      by_cases hT : c + 1 = T
      · rw [if_pos hT]
        by_cases hf : fails n = true
        · rw [if_pos hf,
            if_pos (show c < T ∧ T ≤ c + ((key, v) :: rest).length by
              simp only [List.length_cons]; omega)]
          rfl
        · rw [if_neg hf]
          dsimp only
          simp only [List.length_cons]
          rw [ih [] (c + 1) (n + 1)]
          split_ifs <;> omega
      · rw [if_neg hT, ih _ (c + 1) n]
        simp only [List.length_cons]
        split_ifs <;> omega

/-- With no failing store call the batch loop ends normally. -/
lemma batch_loop_ok (T : Nat) :
    ∀ (l : List (String × Value)) (batch : List BatchRequest) (c n : Nat),
      (batch_loop (fun _ => false) T l batch c n).1 = Outcome.ok () := by
  intro l
  induction l with
  | nil => intro batch c n; rfl
  | cons p rest ih =>
    intro batch c n
    cases p with
    | mk key v =>
      rw [batch_loop_cons]
      by_cases hT : c + 1 = T
      · rw [if_pos hT, if_neg (by simp)]
        exact ih [] (c + 1) (n + 1)
      · rw [if_neg hT]
        exact ih _ (c + 1) n

/-- When the one flush the loop can perform does happen and the store
call fails, the store error propagates as an error value. -/
lemma batch_loop_err (fails : Nat → Bool) (T : Nat) :
    ∀ (l : List (String × Value)) (batch : List BatchRequest) (c n : Nat),
      c < T → T ≤ c + l.length → fails n = true →
      (batch_loop fails T l batch c n).1 = Outcome.err (Err.store "batch") := by
  intro l
  induction l with
  | nil =>
    intro batch c n hc hle _
    simp only [List.length_nil] at hle
    omega
  | cons p rest ih =>
    intro batch c n hc hle hf
    cases p with
    | mk key v =>
      rw [batch_loop_cons]
      by_cases hT : c + 1 = T
      · rw [if_pos hT, if_pos hf]
      · rw [if_neg hT]
        refine ih _ (c + 1) n (by omega) ?_ hf
        simp only [List.length_cons] at hle
        omega

/-- The appended shark is always the last descriptor of an altered object. -/
lemma alter_one_getLast (tok : String) (rid : Nat) (m : MantaObject) :
    (alter_one tok rid m).sharks.getLast?
      = some ⟨tok, format_storage_id rid⟩ := by
  unfold alter_one
  exact List.getLast?_append_cons m.sharks.dropLast _ []

/-- Under distinct input keys the `alter_objects` fold is a plain map. -/
lemma alter_objects_eq_map (tok : String) (rid : Nat)
    (c : List (String × MantaObject)) (hnd : (c.map Prod.fst).Nodup) :
    alter_objects tok rid c
      = c.map (fun p => (p.1, Value.obj (alter_one tok rid p.2))) := by
  have h := foldl_insertKV_eq_append (fun p : String × MantaObject => p.1)
    (fun p => Value.obj (alter_one tok rid p.2)) c [] hnd (by simp)
  simpa [alter_objects] using h

/-- Pure-fold form of the instrumented `alter_objects` loop. -/
lemma alter_objects_frame_general (tok : String) (rid : Nat) :
    ∀ (c : List (String × MantaObject)) (a1 : List (String × MantaObject))
      (a2 : List (String × Value)),
      c.foldl
        (fun acc p =>
          (acc.1 ++ [p],
           insertKV acc.2 p.1 (Value.obj (alter_one tok rid p.2)))) (a1, a2)
      = (a1 ++ c,
         c.foldl
           (fun acc p => insertKV acc p.1 (Value.obj (alter_one tok rid p.2)))
           a2) := by
  intro c
  induction c with
  | nil => intro a1 a2; simp
  | cons p rest ih =>
    intro a1 a2
    simp only [List.foldl_cons]
    rw [ih]
    simp

/-- Sequential runner with no failing put: normal end, every entry written. -/
lemma run_sequential_ok (l : List (String × Value)) :
    run_sequential_test (fun _ => false) l = (Outcome.ok (), l) := by
  unfold run_sequential_test
  exact seq_loop_ok l 0

/-- Batched runner with no failing store call ends normally. -/
lemma run_batch_ok (l : List (String × Value)) (T : Nat) :
    (run_batch_test (fun _ => false) l T).1 = Outcome.ok () := by
  unfold run_batch_test
  exact batch_loop_ok T l [] 0 0

/-- Claim C2: for every input mapping, every threshold T ≥ 1 and any
store behaviour, `run_batch_test` performs exactly one batch-execute
call when the mapping has at least T entries and zero otherwise — never
more than one per invocation, because the running counter `batch_count`
is incremented on every entry but never reset after the flush. -/
theorem batch_test_at_most_one_call (fails : Nat → Bool)
    (objects : List (String × Value)) (T : Nat) (hT : 1 ≤ T) :
    (run_batch_test fails objects T).2.length
      = if T ≤ objects.length then 1 else 0 := by
  unfold run_batch_test
  rw [batch_loop_calls]
  split_ifs <;> omega

/-- Witness for `batch_test_at_most_one_call`: threshold 1 on a
singleton mapping gives exactly one batch-execute call. -/
theorem batch_test_at_most_one_call_witness :
    (run_batch_test (fun _ => false) [("k", Value.obj ⟨"k", []⟩)] 1).2.length
      = 1 := by
  have h := batch_test_at_most_one_call (fun _ => false)
    [("k", Value.obj ⟨"k", []⟩)] 1 (by decide)
  simpa using h

/-- Concrete mapping of `n` entries with distinct keys. -/
def sample_entries (n : Nat) : List (String × Value) :=
  (List.range n).map (fun i => (toString i, Value.obj ⟨toString i, []⟩))

/-- Claim C1 (code bug): on a mapping of 120 entries with threshold 50
the code performs exactly one batch-execute call carrying 50 put
requests and completes normally, so 70 entries are silently dropped —
the claim (and the code's evident batching intent) expects
floor(120/50) = 2 calls with only 120 mod 50 = 20 entries dropped. -/
theorem batch_test_single_flush_at_120 :
    (run_batch_test (fun _ => false) (sample_entries 120) 50).2.length = 1
    ∧ (run_batch_test (fun _ => false) (sample_entries 120) 50).2.map
        List.length = [50]
    ∧ (run_batch_test (fun _ => false) (sample_entries 120) 50).1
        = Outcome.ok () := by
  exact ⟨rfl, rfl, rfl⟩

/-- Claim C3 counterexample: mutating an object whose descriptor list is
empty yields one descriptor, not zero — the pop removes nothing while
the push still appends, so the per-object count is not preserved. -/
theorem alter_objects_empty_sharks_cex :
    (alter_objects "t" 7 [("k", ⟨"k", []⟩)]).map
        (fun p => (sharksOf p.2).length) = [1]
    ∧ ([("k", (⟨"k", []⟩ : MantaObject))]).map
        (fun p => p.2.sharks.length) = [0] := by
  exact ⟨rfl, rfl⟩

/-- Claim C3 amended: `alter_objects` preserves the corpus size, and per
object the descriptor count is preserved whenever the input object has
at least one descriptor; an object with an empty descriptor list comes
out with exactly one. -/
theorem alter_objects_count_amended (tok : String) (rid : Nat)
    (c : List (String × MantaObject)) (k : String) (m : MantaObject)
    (hnd : (c.map Prod.fst).Nodup) (hmem : (k, m) ∈ c) :
    (k, Value.obj (alter_one tok rid m)) ∈ alter_objects tok rid c
    ∧ (alter_one tok rid m).sharks.length
        = (if m.sharks.length = 0 then 1 else m.sharks.length)
    ∧ (alter_objects tok rid c).length = c.length := by
  refine ⟨?_, ?_, ?_⟩
  · rw [alter_objects_eq_map tok rid c hnd]
    exact List.mem_map.mpr ⟨(k, m), hmem, rfl⟩
  · simp only [alter_one, List.length_append, List.length_dropLast,
      List.length_cons, List.length_nil]
    by_cases h0 : m.sharks.length = 0
    · rw [if_pos h0]; omega
    · rw [if_neg h0]; omega
  · rw [alter_objects_eq_map tok rid c hnd, List.length_map]

/-- Witness for `alter_objects_count_amended` on a one-object corpus
with a single descriptor. -/
theorem alter_objects_count_amended_witness :
    ("a", Value.obj (alter_one "t" 3 ⟨"a", [⟨"d", "x"⟩]⟩))
        ∈ alter_objects "t" 3 [("a", ⟨"a", [⟨"d", "x"⟩]⟩)]
    ∧ (alter_one "t" 3 (⟨"a", [⟨"d", "x"⟩]⟩ : MantaObject)).sharks.length
        = (if (⟨"a", [⟨"d", "x"⟩]⟩ : MantaObject).sharks.length = 0 then 1
           else (⟨"a", [⟨"d", "x"⟩]⟩ : MantaObject).sharks.length)
    ∧ (alter_objects "t" 3 [("a", ⟨"a", [⟨"d", "x"⟩]⟩)]).length
        = [("a", (⟨"a", [⟨"d", "x"⟩]⟩ : MantaObject))].length :=
  alter_objects_count_amended "t" 3 [("a", ⟨"a", [⟨"d", "x"⟩]⟩)] "a"
    ⟨"a", [⟨"d", "x"⟩]⟩ (by decide) (by decide)

/-- Claim C4: the `alter_objects` loop only reads the borrowed corpus —
the loop instrumented to re-emit each entry exactly as it read it
returns the input corpus unchanged, alongside exactly the mapping
`alter_objects` builds; mutation happens only on the per-entry clone. -/
theorem alter_objects_preserves_input (tok : String) (rid : Nat)
    (c : List (String × MantaObject)) :
    (alter_objects_frame tok rid c).1 = c
    ∧ (alter_objects_frame tok rid c).2 = alter_objects tok rid c := by
  unfold alter_objects_frame alter_objects
  rw [alter_objects_frame_general]
  exact ⟨by simp, rfl⟩

/-- Claim C5 counterexample: two generator iterations drawing the same
object identifier collide in the map — the second insert overwrites the
first, so the corpus has 1 entry although the target count is 2. -/
theorem gen_test_objects_collision_cex :
    ([⟨⟨"a", []⟩, 0, 0⟩, ⟨⟨"a", []⟩, 0, 0⟩] : List GenDraw).length = 2
    ∧ (gen_test_objects [⟨⟨"a", []⟩, 0, 0⟩, ⟨⟨"a", []⟩, 0, 0⟩]).length = 1 := by
  exact ⟨rfl, rfl⟩

/-- Claim C5 amended: when the drawn object identifiers are pairwise
distinct (the spec's large-identifier-space assumption),
`gen_test_objects` returns exactly one entry per draw, keyed by those
identifiers with no duplicate keys; a collision silently overwrites the
earlier entry instead. -/
theorem gen_test_objects_count_amended (draws : List GenDraw)
    (hnd : (draws.map (fun d => d.base.object_id)).Nodup) :
    (gen_test_objects draws).length = draws.length
    ∧ ((gen_test_objects draws).map Prod.fst).Nodup := by
  have hnd2 : (draws.map (fun d => (gen_one d).object_id)).Nodup := hnd
  have h := foldl_insertKV_eq_append (fun d => (gen_one d).object_id) gen_one
    draws [] hnd2 (by simp)
  constructor
  · have h2 : gen_test_objects draws
        = draws.map (fun d => ((gen_one d).object_id, gen_one d)) := by
      simpa [gen_test_objects] using h
    rw [h2, List.length_map]
  · have h2 : gen_test_objects draws
        = draws.map (fun d => ((gen_one d).object_id, gen_one d)) := by
      simpa [gen_test_objects] using h
    rw [h2, List.map_map]
    simpa [Function.comp] using hnd2

/-- Witness for `gen_test_objects_count_amended` on two distinct draws. -/
theorem gen_test_objects_count_amended_witness :
    (gen_test_objects [⟨⟨"a", []⟩, 0, 0⟩, ⟨⟨"b", []⟩, 1, 1⟩]).length
        = ([⟨⟨"a", []⟩, 0, 0⟩, ⟨⟨"b", []⟩, 1, 1⟩] : List GenDraw).length
    ∧ ((gen_test_objects [⟨⟨"a", []⟩, 0, 0⟩, ⟨⟨"b", []⟩, 1, 1⟩]).map
        Prod.fst).Nodup :=
  gen_test_objects_count_amended [⟨⟨"a", []⟩, 0, 0⟩, ⟨⟨"b", []⟩, 1, 1⟩]
    (by decide)

/-- Claim C6: every object in the output of one `alter_objects`
invocation carries, as its appended (last) placement descriptor, the
same pair built from the invocation-wide random token and storage id. -/
theorem alter_objects_shared_descriptor (tok : String) (rid : Nat)
    (c : List (String × MantaObject)) (kv : String × Value)
    (hmem : kv ∈ alter_objects tok rid c) :
    (sharksOf kv.2).getLast? = some ⟨tok, format_storage_id rid⟩ := by
  refine mem_foldl_insertKV (fun p : String × MantaObject => p.1)
    (fun p => Value.obj (alter_one tok rid p.2))
    (fun q => (sharksOf q.2).getLast? = some ⟨tok, format_storage_id rid⟩)
    c [] (by simp) ?_ kv hmem
  intro p hp
  exact alter_one_getLast tok rid p.2

/-- Witness for `alter_objects_shared_descriptor` on a singleton corpus. -/
theorem alter_objects_shared_descriptor_witness :
    (sharksOf (("a", Value.obj (alter_one "t" 3 ⟨"a", []⟩))
        : String × Value).2).getLast?
      = some ⟨"t", format_storage_id 3⟩ :=
  alter_objects_shared_descriptor "t" 3 [("a", ⟨"a", []⟩)]
    ("a", Value.obj (alter_one "t" 3 ⟨"a", []⟩)) (by decide)

/-- Claim C7 counterexample: a failing individual write in the
sequential pass ends in a panic (the `expect` call), not in a propagated
error value. -/
theorem write_failure_panics_cex :
    isErrValue (run_sequential_test (fun _ => true)
        [("k", Value.obj ⟨"k", []⟩)]).1 = false
    ∧ isPanic (run_sequential_test (fun _ => true)
        [("k", Value.obj ⟨"k", []⟩)]).1 = true := by
  exact ⟨rfl, rfl⟩

/-- Claim C7 amended: within a pass any store failure aborts the pass
immediately with no further writes; a batch-execute failure propagates
to the caller as an error value, while a failing individual write in
the sequential pass aborts via panic rather than as an error value. -/
theorem write_failure_aborts_amended :
    (∀ (fails : Nat → Bool) (objects : List (String × Value)) (k : Nat),
      k < objects.length → (∀ j, j < k → fails j = false) → fails k = true →
      run_sequential_test fails objects
        = (Outcome.panic "put object", objects.take (k + 1)))
    ∧ (∀ (fails : Nat → Bool) (objects : List (String × Value)) (T : Nat),
      1 ≤ T → T ≤ objects.length → fails 0 = true →
      (run_batch_test fails objects T).1 = Outcome.err (Err.store "batch")
      ∧ (run_batch_test fails objects T).2.length = 1) := by
  constructor
  · intro fails objects k hk hb hf
    unfold run_sequential_test
    refine seq_loop_first_fail fails objects 0 k hk ?_ ?_
    · intro j hj
      simpa using hb j hj
    · simpa using hf
  · intro fails objects T hT hTle hf
    refine ⟨?_, ?_⟩
    · unfold run_batch_test
      exact batch_loop_err fails T objects [] 0 0 (by omega) (by omega) hf
    · unfold run_batch_test
      rw [batch_loop_calls, if_pos ⟨by omega, by omega⟩]

/-- Witness for `write_failure_aborts_amended`: a one-entry pass whose
first store call fails. -/
theorem write_failure_aborts_amended_witness :
    run_sequential_test (fun _ => true) [("k", Value.obj ⟨"k", []⟩)]
      = (Outcome.panic "put object",
         [("k", Value.obj ⟨"k", []⟩)].take (0 + 1))
    ∧ (run_batch_test (fun _ => true) [("k", Value.obj ⟨"k", []⟩)] 1).1
        = Outcome.err (Err.store "batch") := by
  constructor
  · exact write_failure_aborts_amended.1 (fun _ => true)
      [("k", Value.obj ⟨"k", []⟩)] 0 (by decide)
      (fun j hj => absurd hj (by omega)) rfl
  · exact (write_failure_aborts_amended.2 (fun _ => true)
      [("k", Value.obj ⟨"k", []⟩)] 1 (by decide) (by decide) rfl).1

/-- Claim C8: a lookup yielding zero SRV candidates makes
`get_srv_record` return the catch-all discovery error as an error value,
an address resolution yielding no addresses makes `lookup_ip` do the
same, and neither function can end in a panic on any input. -/
theorem discovery_empty_yields_error :
    (∀ r : Nat, get_srv_record (Except.ok []) r = Outcome.err Err.catchAll)
    ∧ lookup_ip (Except.ok []) = Outcome.err Err.catchAll
    ∧ (∀ (res : Except Err (List Srv)) (r : Nat),
        isPanic (get_srv_record res r) = false)
    ∧ (∀ res : Except Err (List IpAddr), isPanic (lookup_ip res) = false) := by
  refine ⟨fun r => rfl, rfl, ?_, ?_⟩
  · intro res r
    cases res with
    | error e => rfl
    | ok recs =>
      unfold get_srv_record
      cases hc : choose recs r with
      | some s => simp [hc, isPanic]
      | none => simp [hc, isPanic]
  · intro res
    cases res with
    | error e => rfl
    | ok addrs =>
      unfold lookup_ip
      cases hc : addrs.head? with
      | some a => simp [hc, isPanic]
      | none => simp [hc, isPanic]

/-- Claim C9: with no store failures a harness run executes exactly four
benchmark passes in the order sequential, batched, batched, sequential,
each handed a fresh `alter_objects` mutation of the same baseline
corpus, one after the other. -/
theorem main_bench_four_passes (t1 t2 t3 t4 : String × Nat)
    (c : List (String × MantaObject)) :
    main_bench (fun _ => false) (fun _ => false) (fun _ => false)
        (fun _ => false) t1 t2 t3 t4 c
      = (Outcome.ok (),
         [⟨Strategy.sequential, alter_objects t1.1 t1.2 c⟩,
          ⟨Strategy.batched, alter_objects t2.1 t2.2 c⟩,
          ⟨Strategy.batched, alter_objects t3.1 t3.2 c⟩,
          ⟨Strategy.sequential, alter_objects t4.1 t4.2 c⟩]) := by
  unfold main_bench
  simp only [run_sequential_ok, run_batch_ok]

/-- Claim C10: every object produced by `gen_test_objects` carries
exactly two placement descriptors: the generation loop runs two passes
and appends one descriptor per pass. -/
theorem gen_objects_two_sharks (draws : List GenDraw)
    (kv : String × MantaObject) (hmem : kv ∈ gen_test_objects draws) :
    kv.2.sharks.length = 2 := by
  refine mem_foldl_insertKV (fun d => (gen_one d).object_id) gen_one
    (fun q => q.2.sharks.length = 2) draws [] (by simp) ?_ kv hmem
  intro d hd
  rfl

/-- Witness for `gen_objects_two_sharks` on a single draw. -/
theorem gen_objects_two_sharks_witness :
    (("a", gen_one ⟨⟨"a", []⟩, 0, 0⟩) : String × MantaObject).2.sharks.length
      = 2 :=
  gen_objects_two_sharks [⟨⟨"a", []⟩, 0, 0⟩]
    ("a", gen_one ⟨⟨"a", []⟩, 0, 0⟩) (by decide)

end MorayBatchTest
